import Mathlib

/-!
Verification of the phrase-matching core of `modulo_pln_vf`.

The Python modules `app/preprocess.py` and `app/matcher_improved.py` are
shallowly embedded below.  Machine floats are modelled by `ℚ`; the external
sentence-embedding oracle is abstracted by passing the cosine-similarity
scores it would produce as explicit parameters (`GroupData.items`).  The
character-level operations model Python string semantics over the ASCII
repertoire extended with the Spanish accented letters that the code and its
dataset actually use.
-/

set_option maxHeartbeats 1000000

set_option allowUnsafeReducibility true

attribute [semireducible] Rat.add Rat.mul Rat.sub Rat.inv

/-! ## Character model (Python `str` methods over the Spanish repertoire) -/

/-- Uppercase accented Spanish letters paired with their lowercase forms. -/
def upperAccentPairs : List (Char × Char) :=
  [('Á','á'),('É','é'),('Í','í'),('Ó','ó'),('Ú','ú'),('Ü','ü'),('Ñ','ñ')]

def accentedUppers : List Char := ['Á','É','Í','Ó','Ú','Ü','Ñ']

def accentedLowers : List Char := ['á','é','í','ó','ú','ü','ñ']

/-- Model of Python `str.lower` on a single character. -/
def pyCharLower (c : Char) : Char :=
  match upperAccentPairs.lookup c with
  | some l => l
  | none => c.toLower

/-- Model of Python `str.upper` on a single character. -/
def pyCharUpper (c : Char) : Char :=
  match (upperAccentPairs.map (fun p => (p.2, p.1))).lookup c with
  | some u => u
  | none => c.toUpper

/-- Model of Python `str.isupper` on a single character. -/
def pyCharIsUpper (c : Char) : Bool :=
  c.isUpper || accentedUppers.contains c

/-- Model of Python `str.islower` on a single character. -/
def pyCharIsLower (c : Char) : Bool :=
  c.isLower || accentedLowers.contains c

/-- Model of Python `str.isalpha` on a single character. -/
def pyCharIsAlpha (c : Char) : Bool :=
  c.isAlpha || accentedUppers.contains c || accentedLowers.contains c

/-- Model of Python `str.islower` on a string: at least one cased character
and no uppercase cased character. -/
def pyStrIsLower (s : String) : Bool :=
  s.data.any pyCharIsLower && s.data.all (fun c => !pyCharIsUpper c)

/-- Model of Python `str.lower`. -/
def pyLower (s : String) : String := String.mk (s.data.map pyCharLower)

/-- Model of Python `str.upper`. -/
def pyUpper (s : String) : String := String.mk (s.data.map pyCharUpper)

/-- Model of Python `str.strip`: drop leading and trailing whitespace. -/
def pyStrip (s : String) : String :=
  String.mk (((s.data.dropWhile Char.isWhitespace).reverse.dropWhile
    Char.isWhitespace).reverse)

/-- Accumulator pass behind `pySplitWS`. -/
def splitWSAux : List Char → List Char → List String
  | [], acc => if acc.isEmpty then [] else [String.mk acc.reverse]
  | c :: cs, acc =>
    if c.isWhitespace then
      if acc.isEmpty then splitWSAux cs []
      else String.mk acc.reverse :: splitWSAux cs []
    else splitWSAux cs (c :: acc)

/-- Model of Python `str.split()` with no argument: split on whitespace
runs, discarding empty pieces. -/
def pySplitWS (s : String) : List String := splitWSAux s.data []

/-! ## `app/preprocess.py` -/

/-- One `re.sub(..{2,}..)` pass: collapse runs (length at least 2) of
characters satisfying `p`, keeping the last character of each run. -/
def collapseRun (p : Char → Bool) : List Char → List Char
  | [] => []
  | [a] => [a]
  | a :: b :: rest =>
    if p a && p b then collapseRun p (b :: rest)
    else a :: collapseRun p (b :: rest)

/-- `remove_repeated_punctuation`: the four `re.sub` passes of the source,
in order (`!`, `?`, `.`, then the class `[,;:]`). -/
def remove_repeated_punctuation (cs : List Char) : List Char :=
  collapseRun (fun c => c = ',' || c = ';' || c = ':')
    (collapseRun (· = '.') (collapseRun (· = '?') (collapseRun (· = '!') cs)))

/-- NFD-decompose-and-drop-combining-marks, restricted to the modelled
repertoire: each accented lowercase letter maps to its base letter. -/
def stripAccentChar (c : Char) : Char :=
  match ([('á','a'),('é','e'),('í','i'),('ó','o'),('ú','u'),('ü','u'),
          ('ñ','n')] : List (Char × Char)).lookup c with
  | some b => b
  | none => c

/-- Model of the regex class `\w` (word character): letters, digits and the
underscore.  Note that `\w` deliberately includes `'_'`, exactly as Python's
`re` does. -/
def isWordChar (c : Char) : Bool :=
  c.isAlphanum || c = '_' || accentedUppers.contains c || accentedLowers.contains c

/-- `re.sub(r'\s+', ' ', ...)`: collapse every whitespace run to one space. -/
def collapseWS : List Char → List Char
  | [] => []
  | [a] => if a.isWhitespace then [' '] else [a]
  | a :: b :: rest =>
    if a.isWhitespace && b.isWhitespace then collapseWS (b :: rest)
    else (if a.isWhitespace then ' ' else a) :: collapseWS (b :: rest)

/-- `normalize_text` from `app/preprocess.py`: lowercase, collapse repeated
punctuation, strip accents, replace every non-`\w`, non-whitespace character
by a space, collapse whitespace, trim. -/
def normalize_text (s : String) : String :=
  let cs := s.data.map pyCharLower
  let cs := remove_repeated_punctuation cs
  let cs := cs.map stripAccentChar
  let cs := cs.map (fun c => if isWordChar c || c.isWhitespace then c else ' ')
  let cs := collapseWS cs
  String.mk ((cs.dropWhile Char.isWhitespace).reverse.dropWhile
    Char.isWhitespace).reverse

/-- Longest common subsequence length with explicit fuel; every recursive
call strictly shrinks the combined length, so fuel equal to the combined
length is always sufficient. -/
def lcsLenFuel : Nat → List Char → List Char → Nat
  | 0, _, _ => 0
  | _ + 1, [], _ => 0
  | _ + 1, _ :: _, [] => 0
  | n + 1, a :: as, b :: bs =>
    if a = b then lcsLenFuel n as bs + 1
    else max (lcsLenFuel n (a :: as) bs) (lcsLenFuel n as (b :: bs))

/-- Longest common subsequence length, the basis of `rapidfuzz.fuzz.ratio`. -/
def lcsLen (l r : List Char) : Nat := lcsLenFuel (l.length + r.length) l r

/-- `rapidfuzz.fuzz.ratio` on the 0-100 scale: the normalized indel
similarity `200*lcs/(len1+len2)`, with two empty strings scoring 100. -/
def fuzz_ratio (s1 s2 : String) : ℚ :=
  if s1.length + s2.length = 0 then 100
  else 200 * (lcsLen s1.data s2.data : ℚ) / ((s1.length : ℚ) + (s2.length : ℚ))

/-- The loop body of `light_spelling_correction`: the running best is
updated on `score > best_score and score >= threshold`. -/
def corrStep (qn : String) (threshold : ℚ) (acc : String × ℚ)
    (phrase : String) : String × ℚ :=
  if acc.2 < fuzz_ratio qn (normalize_text phrase) ∧
      threshold ≤ fuzz_ratio qn (normalize_text phrase) then
    (phrase, fuzz_ratio qn (normalize_text phrase))
  else acc

/-- `light_spelling_correction` from `app/preprocess.py`.  The running best
starts at `("", 0.0)`, and the final guard `if best_match and ...` models
Python truthiness of the string `best_match`. -/
def light_spelling_correction (query : String) (reference_phrases : List String)
    (threshold : ℚ) : String :=
  if (reference_phrases.foldl
        (corrStep (normalize_text query) threshold) ("", 0)).1 ≠ "" ∧
      threshold ≤ (reference_phrases.foldl
        (corrStep (normalize_text query) threshold) ("", 0)).2 then
    (reference_phrases.foldl
      (corrStep (normalize_text query) threshold) ("", 0)).1
  else query

/-- The `leet_map` table of `normalize_leet_speak`. -/
def leet_map : List (Char × Char) :=
  [('@','a'),('4','a'),('3','e'),('1','i'),('!','i'),('0','o'),('5','s'),
   ('$','s'),('7','t'),('+','t'),('8','b'),('9','g'),('6','g')]

/-- The indexed loop of `normalize_leet_speak`: `i` is the position in the
input, `acc` the output built so far (Python's `normalized` list). -/
def leetGo : List Char → Nat → List Char → List Char
  | [], _, acc => acc
  | c :: cs, i, acc =>
    match leet_map.lookup (pyCharLower c) with
    | some nc =>
      let nc2 :=
        if i = 0 ∧ (pyCharIsUpper c ∨ ¬ pyCharIsAlpha c) then pyCharUpper nc
        else if 0 < i ∧ ¬ acc.isEmpty ∧ pyCharIsUpper (acc.headD ' ')
            ∧ c = pyCharUpper c then
          (if acc.length = 1 then pyCharUpper nc else nc)
        else nc
      leetGo cs (i + 1) (acc ++ [nc2])
    | none => leetGo cs (i + 1) (acc ++ [c])

/-- `normalize_leet_speak` from `app/preprocess.py`. -/
def normalize_leet_speak (text : String) : String :=
  String.mk (leetGo text.data 0 [])

/-- The `special_chars` punctuation-name table of `spell_out_text`. -/
def special_chars : List (Char × String) :=
  [('.', "punto"), (',', "coma"), (';', "punto y coma"), (':', "dos puntos"),
   ('!', "exclamación"), ('?', "interrogación"), ('-', "guión"),
   ('_', "guión bajo"), ('@', "arroba"), ('#', "numeral"), ('$', "dólar"),
   ('%', "porcentaje"), ('&', "ampersand"), ('/', "barra"),
   ('\\', "barra invertida"), ('(', "paréntesis abierto"),
   (')', "paréntesis cerrado"), ('[', "corchete abierto"),
   (']', "corchete cerrado"), ('{', "llave abierta"), ('}', "llave cerrada"),
   ('+', "más"), ('=', "igual"), ('*', "asterisco"), ('"', "comillas"),
   ('\'', "comilla simple")]

/-- Token(s) emitted for one already-uppercased character that was not part
of a digraph. -/
def spellChar (include_spaces : Bool) (c : Char) : List String :=
  if c = ' ' then (if include_spaces then ["espacio"] else [])
  else if pyCharIsAlpha c then [String.mk [c]]
  else if c.isDigit then [String.mk [c]]
  else match special_chars.lookup c with
    | some nm => [nm]
    | none => ["carácter especial: " ++ String.mk [c]]

/-- The left-to-right scan of `spell_out_text` over the uppercased text:
the digraphs `LL`, `RR`, `CH` are checked first at every position and
consume two characters. -/
def spellScan (include_spaces : Bool) : List Char → List String
  | [] => []
  | [c] => spellChar include_spaces c
  | a :: b :: rest =>
    if a = 'L' ∧ b = 'L' then "LL" :: spellScan include_spaces rest
    else if a = 'R' ∧ b = 'R' then "RR" :: spellScan include_spaces rest
    else if a = 'C' ∧ b = 'H' then "CH" :: spellScan include_spaces rest
    else spellChar include_spaces a ++ spellScan include_spaces (b :: rest)

/-- `spell_out_text` from `app/preprocess.py`. -/
def spell_out_text (text : String) (include_spaces : Bool) : List String :=
  if text.data.isEmpty then [] else spellScan include_spaces (text.data.map pyCharUpper)


/-! ## `app/matcher_improved.py`

The `SentenceTransformer` oracle is external: the cosine-similarity scores
it would produce for the current query against each catalog phrase are
passed in as the `items` of each candidate group, and the centroid ranking
computed by `find_best_groups` is the order of the `top_groups` list. -/

/-- `clip_similarity`: `np.clip(similarity, 0.0, 1.0)`. -/
def clip_similarity (x : ℚ) : ℚ := min 1 (max 0 x)

/-- The `GROUP_THRESHOLDS` table, with the `.get(grupo, 0.70)` default. -/
def GROUP_THRESHOLDS (g : String) : ℚ :=
  if g = "A" then 60/100 else if g = "B" then 63/100
  else if g = "C" then 78/100 else 70/100

/-- The `SPELL_OUT_THRESHOLDS` table, with the `.get(grupo, 0.60)` default. -/
def SPELL_OUT_THRESHOLDS (g : String) : ℚ :=
  if g = "A" then 75/100 else if g = "B" then 80/100
  else if g = "C" then 85/100 else 60/100

/-- Does the list start with the pattern? -/
def startsWithChars : List Char → List Char → Bool
  | _, [] => true
  | [], _ :: _ => false
  | c :: cs, p :: ps => c = p && startsWithChars cs ps

/-- The scan of Python `str.replace`: replace non-overlapping occurrences
left to right.  The fuel is the input length; every step consumes at least
one input character, so it never runs out. -/
def replaceFuel (pat rep : List Char) : Nat → List Char → List Char
  | _, [] => []
  | 0, l => l
  | n + 1, c :: cs =>
    if startsWithChars (c :: cs) pat then
      rep ++ replaceFuel pat rep n (List.drop (pat.length - 1) cs)
    else c :: replaceFuel pat rep n cs

/-- Model of Python `str.replace(pat, rep)` for a non-empty pattern (every
pattern used by the matcher is a non-empty synonym-table key). -/
def pyReplace (s pat rep : String) : String :=
  if pat.data.isEmpty then s
  else String.mk (replaceFuel pat.data rep.data s.data.length s.data)

/-- The `SYNONYMS` table, in its source order. -/
def SYNONYMS : List (String × List String) :=
  [("ayuda", ["asistencia", "soporte", "apoyo"]),
   ("problema", ["error", "fallo", "inconveniente", "issue"]),
   ("quiero", ["deseo", "necesito", "requiero"]),
   ("cambiar", ["modificar", "actualizar", "editar"]),
   ("cancelar", ["eliminar", "borrar", "anular"]),
   ("hola", ["saludos", "buenos días", "buenas"]),
   ("gracias", ["agradecimiento", "muchas gracias", "te agradezco"])]

/-- `_expand_with_synonyms`: for each word of the lowercased query that is a
key of `SYNONYMS`, append `query.lower().replace(word, synonym)` for each of
its synonyms (Python `str.replace`, i.e. global substring replacement), then
truncate the whole list, original included, to 5 elements. -/
def expand_with_synonyms (use_synonym_expansion : Bool) (query : String) :
    List String :=
  if use_synonym_expansion = false then [query]
  else
    let words := pySplitWS (pyLower query)
    let variants := List.flatten (words.map (fun w =>
      match SYNONYMS.lookup w with
      | some syns => syns.map (fun syn => pyReplace (pyLower query) w syn)
      | none => []))
    (query :: variants).take 5

/-- The `COMMON_SPANISH_NAMES` set of the matcher. -/
def COMMON_SPANISH_NAMES : List String :=
  ["juan", "jose", "antonio", "manuel", "francisco", "david", "carlos",
   "miguel", "pedro", "luis", "jesus", "pablo", "javier", "sergio",
   "rafael", "daniel", "jorge", "alberto", "fernando", "ricardo",
   "alejandro", "adrian", "andres", "raul", "enrique", "ivan",
   "maria", "carmen", "ana", "isabel", "pilar", "teresa", "rosa",
   "laura", "marta", "elena", "sara", "lucia", "paula", "sofia",
   "cristina", "andrea", "julia", "raquel", "beatriz", "patricia"]

/-- The fixed extra words added to `palabras_conocidas` inside
`search_similar_phrase`. -/
def palabras_comunes_extra : List String :=
  ["ayuda", "hola", "gracias", "bien", "mal", "si", "no",
   "vale", "ok", "perdon", "espera", "entiendo", "auxilio",
   "socorro", "doctor", "hospital", "salida", "fuego", "urgente",
   "alto", "ayda", "ola", "hla", "grcias"]

/-- The `palabras_conocidas` set built inside `search_similar_phrase`: every
word of every normalized dataset phrase, plus the fixed extra words. -/
def palabras_conocidas (grupos_frases : List (String × List String)) :
    List String :=
  List.flatten (grupos_frases.map (fun p =>
    List.flatten (p.2.map (fun f => pySplitWS (normalize_text f))))) ++
  palabras_comunes_extra

/-- One candidate group as seen by `find_most_similar_phrase_reranked`:
its id and, index-aligned exactly as `grupos_frases[g]`/`cosine_similarity`
are in the source, each phrase paired with the oracle's cosine similarity
of the encoded query against that phrase's embedding. -/
structure GroupData where
  name : String
  items : List (String × ℚ)
deriving DecidableEq

/-- The word-count boost of the re-ranking loop: `+0.15` for 3 or more
words, `+0.08` for exactly 2, nothing otherwise. -/
def lengthBoost (frase : String) : ℚ :=
  let n := (pySplitWS frase).length
  if 3 ≤ n then 15/100 else if n = 2 then 8/100 else 0

/-- `boosted_similarities`: each phrase's score plus its length boost. -/
def boostedItems (g : GroupData) : List (String × ℚ) :=
  g.items.map (fun p => (p.1, p.2 + lengthBoost p.1))

/-- `np.argmax` over a phrase/score list: the first pair attaining the
maximal score (`none` on the empty list, where numpy raises). -/
def argmaxPair : List (String × ℚ) → Option (String × ℚ)
  | [] => none
  | p :: ps => some (ps.foldl (fun best q => if best.2 < q.2 then q else best) p)

/-- One iteration body of the re-ranking loop: boost, arg-max, clamp, and
the `+0.05` most-likely-group bonus (clamped again) when `g` is the top
centroid-ranked group. -/
def groupBest (topName : String) (g : GroupData) : Option (String × ℚ) :=
  match argmaxPair (boostedItems g) with
  | none => none
  | some (f, m) =>
    let m1 := clip_similarity m
    let m2 := if g.name = topName then clip_similarity (m1 + 5/100) else m1
    some (f, m2)

/-- The candidate loop of `find_most_similar_phrase_reranked`: the
accumulator is `(best_group, best_phrase)` (as one option) and
`best_similarity` (initially `-1.0`); a group wins the accumulator when its
boosted score is strictly greater and meets that group's own threshold.
`none` models the `ValueError`/`IndexError` numpy raises on an empty group. -/
def rerankedLoop (topName : String) :
    List GroupData → Option (String × String) × ℚ →
    Option (Option (String × String) × ℚ)
  | [], acc => some acc
  | g :: gs, acc =>
    match groupBest topName g with
    | none => none
    | some (f, m) =>
      if acc.2 < m ∧ GROUP_THRESHOLDS g.name ≤ m then
        rerankedLoop topName gs (some (g.name, f), m)
      else rerankedLoop topName gs acc

/-- `find_most_similar_phrase_reranked`, as a function of the top-3
candidate list (in centroid-rank order) carrying the oracle's per-phrase
scores.  When no group clears its threshold the fallback takes the plain
(unboosted) arg-max over the top-1 group only, clamped. -/
def find_most_similar_phrase_reranked (top_groups : List GroupData) :
    Option (String × String × ℚ) :=
  match top_groups with
  | [] => none
  | g0 :: _ =>
    match rerankedLoop g0.name top_groups (none, -1) with
    | none => none
    | some (some (gname, f), s) => some (gname, f, s)
    | some (none, _) =>
      match argmaxPair g0.items with
      | none => none
      | some (f, s) => some (g0.name, f, clip_similarity s)

/-- The result dictionary of `search_similar_phrase`. -/
structure SearchResult where
  query : String
  grupo : Option String
  frase_similar : String
  similitud : ℚ
  deletreo_activado : Bool
  deletreo : Option (List String)
  total_caracteres : Option Nat
deriving DecidableEq

/-- Python `round(x, 4)` (modelled with Mathlib's `round`; the claims under
study never sit on a half-way tie, where Python's banker's rounding would
differ). -/
def round4 (x : ℚ) : ℚ := ((round (x * 10000) : ℤ) : ℚ) / 10000

/-- The initial spell-out decision of `search_similar_phrase`:
`similarity < spell_out_threshold`. -/
def spell_out_initial (grupo : String) (similarity : ℚ) : Bool :=
  decide (similarity < SPELL_OUT_THRESHOLDS grupo)

/-- VALIDACIÓN 1 and 2 of `search_similar_phrase`: for a single-word
normalized query of 3-8 characters, force spell-out when it is a known
Spanish first name, or when it is absent from `palabras_conocidas` and the
similarity lies in `[0.50, 0.85)`. -/
def spell_out_names (grupos_frases : List (String × List String))
    (query : String) (similarity : ℚ) (b : Bool) : Bool :=
  if (pySplitWS (pyLower (pyStrip query))).length = 1 then
    if 3 ≤ ((pySplitWS (pyLower (pyStrip query))).headD "").length ∧
        ((pySplitWS (pyLower (pyStrip query))).headD "").length ≤ 8 then
      if COMMON_SPANISH_NAMES.contains (pyLower (pyStrip query)) then true
      else if (palabras_conocidas grupos_frases).contains
          (pyLower (pyStrip query)) then b
      else if 1/2 ≤ similarity ∧ similarity < 85/100 then true
      else b
    else b
  else b

/-- VALIDACIÓN 3 of `search_similar_phrase`: `len(query) > 2 and
query[0].isupper() and query[1:].islower()` with `similarity < 0.98`
forces spell-out. -/
def spell_out_caps (query : String) (similarity : ℚ) (b : Bool) : Bool :=
  if 2 < query.length ∧ pyCharIsUpper (query.data.headD ' ')
      ∧ pyStrIsLower (String.mk (query.data.drop 1))
      ∧ similarity < 98/100 then true
  else b

/-- The length-mismatch penalty block of `search_similar_phrase`: when both
the stripped query and the matched phrase are single words whose lengths
differ by more than 1, the penalized (and clamped) similarity, else `none`. -/
def length_penalized (query frase : String) (similarity : ℚ) : Option ℚ :=
  if (pySplitWS (pyStrip query)).length = 1 ∧
      (pySplitWS (pyStrip frase)).length = 1 then
    if 1 < (((((pySplitWS (pyStrip query)).headD "").length : ℤ) -
        (((pySplitWS (pyStrip frase)).headD "").length : ℤ)).natAbs) then
      some (clip_similarity (similarity - 5/100 *
        ((((((pySplitWS (pyStrip query)).headD "").length : ℤ) -
          (((pySplitWS (pyStrip frase)).headD "").length : ℤ)).natAbs : ℚ))))
    else none
  else none

/-- The spell-out branch of the result dictionary: leet-speak is normalized
on the raw query, the spelling includes spaces, and `frase_similar` is the
space-joined token list. -/
def spellResult (query : String) (s : ℚ) : SearchResult :=
  let dl := spell_out_text (normalize_leet_speak query) true
  { query := query, grupo := none, frase_similar := String.intercalate " " dl,
    similitud := round4 s, deletreo_activado := true, deletreo := some dl,
    total_caracteres := some dl.length }

/-- The normal-match branch of the result dictionary. -/
def normalResult (query grupo frase : String) (s : ℚ) : SearchResult :=
  { query := query, grupo := some grupo, frase_similar := frase,
    similitud := round4 s, deletreo_activado := false, deletreo := none,
    total_caracteres := none }

/-- The tail of `search_similar_phrase` after `find_most_similar_phrase_reranked`
returned `(grupo, frase, similarity)`: threshold check, the three name
heuristics, then the length penalty.  When the penalty fires, the source's
last assignment recomputes `should_spell_out` as `penalized < threshold`
(overriding the heuristics) and the penalized score is reported; otherwise
the heuristic decision and the unpenalized score stand. -/
def search_post (grupos_frases : List (String × List String))
    (query grupo frase : String) (similarity : ℚ) : SearchResult :=
  match length_penalized query frase similarity with
  | some s =>
    if s < SPELL_OUT_THRESHOLDS grupo then spellResult query s
    else normalResult query grupo frase s
  | none =>
    if spell_out_caps query similarity
        (spell_out_names grupos_frases query similarity
          (spell_out_initial grupo similarity)) then
      spellResult query similarity
    else normalResult query grupo frase similarity

/-- `search_similar_phrase` (in the `use_reranking=True` configuration the
spec describes), as a function of the candidate data and the full
`grupos_frases` catalog. -/
def search_similar_phrase (top_groups : List GroupData)
    (grupos_frases : List (String × List String)) (query : String) :
    Option SearchResult :=
  match find_most_similar_phrase_reranked top_groups with
  | none => none
  | some (grupo, frase, similarity) =>
    some (search_post grupos_frases query grupo frase similarity)

/-! ## Claim-side definitions

These definitions are written from the wording of the spec's claims, to be
compared with the embedded source functions above. -/

/-- Claim-side (C2): the word-count boost exactly as the claim enumerates
it: `+0.15` for a phrase of 3 or more words, `+0.08` for exactly 2 words,
no boost otherwise. -/
def claimLengthBoost (frase : String) : ℚ :=
  if 3 ≤ (pySplitWS frase).length then 15/100
  else if (pySplitWS frase).length = 2 then 8/100 else 0

/-- Claim-side: clamping to the unit interval. -/
def claimClamp (x : ℚ) : ℚ := max 0 (min 1 x)

/-- Claim-side (C2): one candidate group's entry: its id, its arg-max
boosted phrase, and that clamped boosted score, with the further clamped
`+0.05` bonus when the group is the single top-ranked one. -/
def claimEntry (topName : String) (g : GroupData) : String × String × ℚ :=
  match argmaxPair (g.items.map (fun p => (p.1, p.2 + claimLengthBoost p.1))) with
  | none => (g.name, "", -1)
  | some (f, m) =>
    let m1 := claimClamp m
    (g.name, f, if g.name = topName then claimClamp (m1 + 5/100) else m1)

/-- Claim-side (C2): among the candidate entries, the one with the highest
score that also meets or exceeds its own group's threshold; on ties the
earlier entry (centroid-rank order) wins. -/
def bestPassing : List (String × String × ℚ) → Option (String × String × ℚ)
  | [] => none
  | e :: es =>
    match bestPassing es with
    | none => if GROUP_THRESHOLDS e.1 ≤ e.2.2 then some e else none
    | some b =>
      if GROUP_THRESHOLDS e.1 ≤ e.2.2 ∧ b.2.2 ≤ e.2.2 then some e else some b

/-- Claim-side (C2): the selection `find_most_similar_phrase_reranked` is
claimed to perform, including the fallback to the best absolute unboosted
score over the top-1 group when no candidate clears its threshold. -/
def rerankedClaim (top_groups : List GroupData) : Option (String × String × ℚ) :=
  match top_groups with
  | [] => none
  | g0 :: _ =>
    match bestPassing (top_groups.map (claimEntry g0.name)) with
    | some e => some e
    | none =>
      match argmaxPair g0.items with
      | none => none
      | some (f, s) => some (g0.name, f, claimClamp s)

/-- Claim-side (C5): the word-for-word single-substitution variants of a
query: a word of the query that is a key of the synonym table is replaced,
in its own word position only, by one of that word's synonyms. -/
def wordForWordVariants (query : String) : List String :=
  let ws := pySplitWS (pyLower query)
  List.flatten ((List.range ws.length).map (fun i =>
    match SYNONYMS.lookup (ws.getD i "") with
    | some syns => syns.map (fun syn => String.intercalate " " (ws.set i syn))
    | none => []))

/-- Claim-side (C8): the single best-scoring reference with its score,
earliest-encountered-wins on ties. -/
def claimBestRef (qn : String) : List String → Option (String × ℚ)
  | [] => none
  | p :: ps =>
    match claimBestRef qn ps with
    | none => some (p, fuzz_ratio qn (normalize_text p))
    | some b =>
      if b.2 ≤ fuzz_ratio qn (normalize_text p) then
        some (p, fuzz_ratio qn (normalize_text p))
      else some b

/-! ## Helper lemmas -/

lemma claimClamp_eq_clip : claimClamp = clip_similarity := by
  funext x
  unfold claimClamp clip_similarity
  rcases le_total x 0 with h | h <;> rcases le_total x 1 with h2 | h2 <;>
    simp [min_def, max_def] <;> split_ifs <;> linarith

lemma claimLengthBoost_eq_boost : claimLengthBoost = lengthBoost := by
  funext f
  rfl

lemma clip_mem (x : ℚ) : 0 ≤ clip_similarity x ∧ clip_similarity x ≤ 1 := by
  unfold clip_similarity
  constructor
  · exact le_min (by norm_num) (le_max_left 0 x)
  · exact min_le_left 1 _

lemma round4_mem (x : ℚ) (h0 : 0 ≤ x) (h1 : x ≤ 1) :
    0 ≤ round4 x ∧ round4 x ≤ 1 := by
  unfold round4
  rw [round_eq]
  have hlo : (0 : ℤ) ≤ ⌊x * 10000 + 1 / 2⌋ :=
    Int.floor_nonneg.mpr (by linarith)
  have hhi : ⌊x * 10000 + 1 / 2⌋ ≤ 10000 := by
    rw [Int.floor_le_iff]
    push_cast
    linarith
  constructor
  · apply div_nonneg _ (by norm_num)
    exact_mod_cast hlo
  · rw [div_le_one (by norm_num)]
    exact_mod_cast hhi

lemma argmaxPair_ne_nil {l : List (String × ℚ)} (h : l ≠ []) :
    ∃ p, argmaxPair l = some p := by
  cases l with
  | nil => exact absurd rfl h
  | cons p ps => exact ⟨_, rfl⟩

lemma claimEntry_name (top : String) (g : GroupData) :
    (claimEntry top g).1 = g.name := by
  unfold claimEntry
  cases h : argmaxPair (g.items.map (fun p => (p.1, p.2 + claimLengthBoost p.1))) with
  | none => rfl
  | some p => cases p ; rfl

lemma groupBest_eq_claimEntry (top : String) (g : GroupData) (h : g.items ≠ []) :
    groupBest top g = some ((claimEntry top g).2.1, (claimEntry top g).2.2) := by
  unfold groupBest claimEntry boostedItems
  rw [claimLengthBoost_eq_boost]
  have hmap : g.items.map (fun p => (p.1, p.2 + lengthBoost p.1)) ≠ [] := by
    simpa using h
  obtain ⟨p, hp⟩ := argmaxPair_ne_nil hmap
  rw [hp]
  cases p
  simp [claimClamp_eq_clip]

lemma thresholds_lb (s : String) : (-1 : ℚ) < GROUP_THRESHOLDS s := by
  unfold GROUP_THRESHOLDS
  split_ifs <;> norm_num

lemma rerankedLoop_some_acc (top : String) :
    ∀ (gs : List GroupData), (∀ g ∈ gs, g.items ≠ []) →
    ∀ (bn bf : String) (bs : ℚ),
      rerankedLoop top gs (some (bn, bf), bs) =
        some (match bestPassing (gs.map (claimEntry top)) with
              | none => (some (bn, bf), bs)
              | some e => if bs < e.2.2 then (some (e.1, e.2.1), e.2.2)
                          else (some (bn, bf), bs)) := by
  intro gs
  induction gs with
  | nil => intro _ bn bf bs ; rfl
  | cons g gs ih =>
    intro h bn bf bs
    have hg : g.items ≠ [] := h g (by simp)
    have hrest : ∀ g2 ∈ gs, g2.items ≠ [] := fun g2 hm => h g2 (by simp [hm])
    simp only [rerankedLoop, groupBest_eq_claimEntry top g hg, List.map_cons]
    rw [← claimEntry_name top g]
    generalize claimEntry top g = e1
    obtain ⟨n1, f1, s1⟩ := e1
    simp only [bestPassing]
    cases hbp : bestPassing (gs.map (claimEntry top)) with
    | none =>
      by_cases hth : GROUP_THRESHOLDS n1 ≤ s1
      · by_cases hbs : bs < s1
        · rw [if_pos ⟨hbs, hth⟩, ih hrest n1 f1 s1, hbp]
          simp [hth, hbs]
        · rw [if_neg (fun hc => hbs hc.1), ih hrest bn bf bs, hbp]
          simp [hth, hbs]
      · rw [if_neg (fun hc => hth hc.2), ih hrest bn bf bs, hbp]
        simp [hth]
    | some e2 =>
      by_cases hth : GROUP_THRESHOLDS n1 ≤ s1
      · by_cases hbs : bs < s1
        · rw [if_pos ⟨hbs, hth⟩, ih hrest n1 f1 s1, hbp]
          by_cases h2 : e2.2.2 ≤ s1
          · have hn2 : ¬ s1 < e2.2.2 := not_lt.mpr h2
            simp [hth, h2, hbs, hn2]
          · have hlt : s1 < e2.2.2 := not_le.mp h2
            have hbe : bs < e2.2.2 := lt_trans hbs hlt
            simp [hth, h2, hlt, hbe]
        · rw [if_neg (fun hc => hbs hc.1), ih hrest bn bf bs, hbp]
          by_cases h2 : e2.2.2 ≤ s1
          · have hbe : ¬ bs < e2.2.2 := by
              push_neg at hbs ⊢
              linarith
            simp [hth, h2, hbe, hbs]
          · simp [hth, h2]
      · rw [if_neg (fun hc => hth hc.2), ih hrest bn bf bs, hbp]
        simp [hth]

lemma rerankedLoop_none_acc (top : String) :
    ∀ (gs : List GroupData), (∀ g ∈ gs, g.items ≠ []) →
      rerankedLoop top gs (none, -1) =
        some (match bestPassing (gs.map (claimEntry top)) with
              | none => (none, -1)
              | some e => (some (e.1, e.2.1), e.2.2)) := by
  intro gs
  induction gs with
  | nil => intro _ ; rfl
  | cons g gs ih =>
    intro h
    have hg : g.items ≠ [] := h g (by simp)
    have hrest : ∀ g2 ∈ gs, g2.items ≠ [] := fun g2 hm => h g2 (by simp [hm])
    simp only [rerankedLoop, groupBest_eq_claimEntry top g hg, List.map_cons]
    rw [← claimEntry_name top g]
    generalize claimEntry top g = e1
    obtain ⟨n1, f1, s1⟩ := e1
    simp only [bestPassing]
    cases hbp : bestPassing (gs.map (claimEntry top)) with
    | none =>
      by_cases hth : GROUP_THRESHOLDS n1 ≤ s1
      · have hm1 : (-1 : ℚ) < s1 := lt_of_lt_of_le (thresholds_lb n1) hth
        rw [if_pos ⟨hm1, hth⟩, rerankedLoop_some_acc top gs hrest n1 f1 s1, hbp]
        simp [hth]
      · rw [if_neg (fun hc => hth hc.2), ih hrest, hbp]
        simp [hth]
    | some e2 =>
      by_cases hth : GROUP_THRESHOLDS n1 ≤ s1
      · have hm1 : (-1 : ℚ) < s1 := lt_of_lt_of_le (thresholds_lb n1) hth
        rw [if_pos ⟨hm1, hth⟩, rerankedLoop_some_acc top gs hrest n1 f1 s1, hbp]
        by_cases h2 : e2.2.2 ≤ s1
        · have hn2 : ¬ s1 < e2.2.2 := not_lt.mpr h2
          simp [hth, h2, hn2]
        · have hlt : s1 < e2.2.2 := not_le.mp h2
          simp [hth, h2, hlt]
      · rw [if_neg (fun hc => hth hc.2), ih hrest, hbp]
        simp [hth]

lemma groupBest_range {top : String} {g : GroupData} {f : String} {m : ℚ}
    (h : groupBest top g = some (f, m)) : 0 ≤ m ∧ m ≤ 1 := by
  unfold groupBest at h
  cases ha : argmaxPair (boostedItems g) with
  | none => rw [ha] at h ; cases h
  | some p =>
    rw [ha] at h
    obtain ⟨pf, pm⟩ := p
    simp only [Option.some.injEq, Prod.mk.injEq] at h
    rw [← h.2]
    split
    · exact clip_mem _
    · exact clip_mem _

lemma rerankedLoop_range (top : String) :
    ∀ (gs : List GroupData) (acc : Option (String × String) × ℚ),
      (∀ p, acc.1 = some p → 0 ≤ acc.2 ∧ acc.2 ≤ 1) →
      ∀ p s, rerankedLoop top gs acc = some (some p, s) → 0 ≤ s ∧ s ≤ 1 := by
  intro gs
  induction gs with
  | nil =>
    intro acc hacc p s hp
    simp only [rerankedLoop, Option.some.injEq] at hp
    subst hp
    exact hacc p rfl
  | cons g gs ih =>
    intro acc hacc p s hp
    simp only [rerankedLoop] at hp
    cases hgb : groupBest top g with
    | none => rw [hgb] at hp ; cases hp
    | some q =>
      rw [hgb] at hp
      obtain ⟨qf, qm⟩ := q
      simp only at hp
      split at hp
      · exact ih _ (fun _ _ => groupBest_range hgb) p s hp
      · exact ih acc hacc p s hp

lemma reranked_range {tg : List GroupData} {gname fphrase : String} {s : ℚ}
    (h : find_most_similar_phrase_reranked tg = some (gname, fphrase, s)) :
    0 ≤ s ∧ s ≤ 1 := by
  unfold find_most_similar_phrase_reranked at h
  cases tg with
  | nil => cases h
  | cons g0 gs =>
    simp only at h
    cases hl : rerankedLoop g0.name (g0 :: gs) (none, -1) with
    | none => rw [hl] at h ; cases h
    | some acc =>
      rw [hl] at h
      obtain ⟨ob, bs⟩ := acc
      cases ob with
      | some p =>
        obtain ⟨pn, pf⟩ := p
        simp only [Option.some.injEq, Prod.mk.injEq] at h
        rw [← h.2.2]
        exact rerankedLoop_range g0.name (g0 :: gs) (none, -1)
          (fun p hp => by cases hp) (pn, pf) bs hl
      | none =>
        simp only at h
        cases ha : argmaxPair g0.items with
        | none => rw [ha] at h ; cases h
        | some q =>
          rw [ha] at h
          obtain ⟨qf, qs⟩ := q
          simp only [Option.some.injEq, Prod.mk.injEq] at h
          rw [← h.2.2]
          exact clip_mem _

lemma length_penalized_range {query frase : String} {sim x : ℚ}
    (h : length_penalized query frase sim = some x) : 0 ≤ x ∧ x ≤ 1 := by
  unfold length_penalized at h
  split at h
  · split at h
    · simp only [Option.some.injEq] at h
      rw [← h]
      exact clip_mem _
    · cases h
  · cases h

/-- Every name in the `COMMON_SPANISH_NAMES` table is a single
whitespace-free token, so it splits into exactly itself. -/
lemma names_split : ∀ n ∈ COMMON_SPANISH_NAMES, pySplitWS n = [n] := by
  decide

lemma spell_out_names_of_name (gf : List (String × List String))
    (query : String) (sim : ℚ) (b : Bool)
    (hname : COMMON_SPANISH_NAMES.contains (pyLower (pyStrip query)) = true)
    (hlen3 : 3 ≤ (pyLower (pyStrip query)).length)
    (hlen8 : (pyLower (pyStrip query)).length ≤ 8) :
    spell_out_names gf query sim b = true := by
  have hmem : pyLower (pyStrip query) ∈ COMMON_SPANISH_NAMES := by
    simpa using hname
  have hsplit := names_split _ hmem
  unfold spell_out_names
  rw [hsplit]
  simp [hlen3, hlen8]
  exact Or.inl hmem

lemma spell_out_caps_true (query : String) (sim : ℚ) :
    spell_out_caps query sim true = true := by
  unfold spell_out_caps
  split <;> rfl

lemma spell_out_caps_of_format (query : String) (sim : ℚ) (b : Bool)
    (hlen : 2 < query.length)
    (hup : pyCharIsUpper (query.data.headD ' ') = true)
    (hlow : pyStrIsLower (String.mk (query.data.drop 1)) = true)
    (hsim : sim < 98/100) :
    spell_out_caps query sim b = true := by
  unfold spell_out_caps
  rw [if_pos ⟨hlen, hup, hlow, hsim⟩]

lemma corr_foldl (qn : String) (thr : ℚ) :
    ∀ (refs : List String) (bp : String) (bs : ℚ),
      refs.foldl (corrStep qn thr) (bp, bs) =
        match claimBestRef qn refs with
        | none => (bp, bs)
        | some e => if thr ≤ e.2 ∧ bs < e.2 then e else (bp, bs) := by
  intro refs
  induction refs with
  | nil => intro bp bs ; rfl
  | cons r rs ih =>
    intro bp bs
    rw [List.foldl_cons]
    simp only [corrStep, claimBestRef]
    by_cases h1 : bs < fuzz_ratio qn (normalize_text r) ∧
        thr ≤ fuzz_ratio qn (normalize_text r)
    · rw [if_pos h1, ih r (fuzz_ratio qn (normalize_text r))]
      cases hbr : claimBestRef qn rs with
      | none => simp [h1.2, h1.1]
      | some e =>
        by_cases he : e.2 ≤ fuzz_ratio qn (normalize_text r)
        · have hnl : ¬ fuzz_ratio qn (normalize_text r) < e.2 := not_lt.mpr he
          simp [he, hnl, h1.1, h1.2]
        · have hlt : fuzz_ratio qn (normalize_text r) < e.2 := not_le.mp he
          have hth2 : thr ≤ e.2 := le_trans h1.2 (le_of_lt hlt)
          have hbs2 : bs < e.2 := lt_trans h1.1 hlt
          simp [he, hlt, hth2, hbs2]
    · rw [if_neg h1, ih bp bs]
      cases hbr : claimBestRef qn rs with
      | none =>
        have hng : ¬ (thr ≤ fuzz_ratio qn (normalize_text r) ∧
            bs < fuzz_ratio qn (normalize_text r)) :=
          fun hc => h1 ⟨hc.2, hc.1⟩
        simp [hng]
      | some e =>
        by_cases he : e.2 ≤ fuzz_ratio qn (normalize_text r)
        · have hng : ¬ (thr ≤ e.2 ∧ bs < e.2) := fun hc =>
            h1 ⟨lt_of_lt_of_le hc.2 he, le_trans hc.1 he⟩
          have hng2 : ¬ (thr ≤ fuzz_ratio qn (normalize_text r) ∧
              bs < fuzz_ratio qn (normalize_text r)) :=
            fun hc => h1 ⟨hc.2, hc.1⟩
          simp [he, hng, hng2]
        · simp [he]

lemma search_post_similitud (gf : List (String × List String))
    (query grupo frase : String) (sim : ℚ) :
    (search_post gf query grupo frase sim).similitud =
      round4 ((length_penalized query frase sim).getD sim) := by
  unfold search_post
  cases hp : length_penalized query frase sim with
  | some x =>
    dsimp only
    by_cases hc : x < SPELL_OUT_THRESHOLDS grupo
    · rw [if_pos hc] ; rfl
    · rw [if_neg hc] ; rfl
  | none =>
    dsimp only
    by_cases hc : spell_out_caps query sim (spell_out_names gf query sim
        (spell_out_initial grupo sim)) = true
    · rw [if_pos hc] ; rfl
    · rw [if_neg hc] ; rfl

/-! ## Claims -/

/-- C1: for every oracle outcome and every query, the `similitud` field of
the result of `search_similar_phrase` lies in `[0.0, 1.0]`: every score is
clamped by `clip_similarity` when computed and again after each additive
adjustment (length boost / most-likely-group bonus inside the re-ranking,
and the length-difference penalty), so the reported value is the 4-decimal
rounding of a clamped value. -/
theorem c1_similitud_in_unit_interval
    (top_groups : List GroupData) (gf : List (String × List String))
    (query : String) (r : SearchResult)
    (h : search_similar_phrase top_groups gf query = some r) :
    0 ≤ r.similitud ∧ r.similitud ≤ 1 := by
  unfold search_similar_phrase at h
  cases hr : find_most_similar_phrase_reranked top_groups with
  | none => rw [hr] at h ; cases h
  | some t =>
    rw [hr] at h
    obtain ⟨gname, fphrase, s⟩ := t
    simp only [Option.some.injEq] at h
    have hs := reranked_range hr
    rw [← h, search_post_similitud]
    cases hp : length_penalized query fphrase s with
    | some x =>
      have hx := length_penalized_range hp
      simpa using round4_mem x hx.1 hx.2
    | none => simpa using round4_mem s hs.1 hs.2

theorem c1_witness :
    ∃ r, search_similar_phrase [⟨"B", [("hola", 7/10)]⟩] [("B", ["hola"])]
        "hola" = some r ∧ 0 ≤ r.similitud ∧ r.similitud ≤ 1 := by
  cases hsr : search_similar_phrase [⟨"B", [("hola", 7/10)]⟩]
      [("B", ["hola"])] "hola" with
  | none => exact absurd hsr (by decide)
  | some r => exact ⟨r, rfl, c1_similitud_in_unit_interval _ _ _ r hsr⟩

/-- C2: `find_most_similar_phrase_reranked` computes exactly the selection
the claim describes (`rerankedClaim`, built from the claim's own wording):
per-phrase boosts of +0.15 / +0.08 / nothing by word count, clamped per-group
arg-max, a clamped +0.05 bonus for the single top centroid group, the winner
being the highest boosted score that meets its own group threshold with ties
broken in candidate order, and the fallback to the best absolute unboosted
score over the top-1 group when nobody clears a threshold.  The hypothesis
is the data-model invariant that every catalog group is non-empty. -/
theorem c2_rerank_matches_claim (top_groups : List GroupData)
    (h : ∀ g ∈ top_groups, g.items ≠ []) :
    find_most_similar_phrase_reranked top_groups = rerankedClaim top_groups := by
  cases top_groups with
  | nil => rfl
  | cons g0 gs =>
    simp only [find_most_similar_phrase_reranked, rerankedClaim]
    rw [rerankedLoop_none_acc g0.name (g0 :: gs) h]
    cases hbp : bestPassing ((g0 :: gs).map (claimEntry g0.name)) with
    | some e => rfl
    | none =>
      obtain ⟨p, hp⟩ := argmaxPair_ne_nil (h g0 (by simp))
      rw [hp]
      obtain ⟨pf, ps⟩ := p
      simp [claimClamp_eq_clip]

theorem c2_witness :
    find_most_similar_phrase_reranked
        [⟨"C", [("gracias", 60/100)]⟩,
         ⟨"A", [("Necesito ayuda urgente", 50/100), ("ayuda", 80/100)]⟩,
         ⟨"B", [("hola", 70/100)]⟩] =
      rerankedClaim
        [⟨"C", [("gracias", 60/100)]⟩,
         ⟨"A", [("Necesito ayuda urgente", 50/100), ("ayuda", 80/100)]⟩,
         ⟨"B", [("hola", 70/100)]⟩] ∧
    rerankedClaim
        [⟨"C", [("gracias", 60/100)]⟩,
         ⟨"A", [("Necesito ayuda urgente", 50/100), ("ayuda", 80/100)]⟩,
         ⟨"B", [("hola", 70/100)]⟩] = some ("A", "ayuda", 4/5) :=
  ⟨c2_rerank_matches_claim _ (by decide), by decide⟩

lemma search_post_spell (gf : List (String × List String))
    (query grupo frase : String) (sim : ℚ)
    (hcap : spell_out_caps query sim (spell_out_names gf query sim
      (spell_out_initial grupo sim)) = true)
    (hpen : ∀ x, length_penalized query frase sim = some x →
      x < SPELL_OUT_THRESHOLDS grupo) :
    search_post gf query grupo frase sim =
      spellResult query ((length_penalized query frase sim).getD sim) := by
  unfold search_post
  cases hp : length_penalized query frase sim with
  | some x =>
    dsimp only
    rw [if_pos (hpen x hp)]
    rfl
  | none =>
    dsimp only
    rw [if_pos hcap]
    rfl

lemma search_post_flag (gf : List (String × List String))
    (query grupo frase : String) (sim x : ℚ)
    (hp : length_penalized query frase sim = some x) :
    (search_post gf query grupo frase sim).deletreo_activado =
      decide (x < SPELL_OUT_THRESHOLDS grupo) := by
  unfold search_post
  rw [hp]
  dsimp only
  by_cases hc : x < SPELL_OUT_THRESHOLDS grupo
  · rw [if_pos hc] ; simp [spellResult, hc]
  · rw [if_neg hc] ; simp [normalResult, hc]

/-- C3 (amended): if the normalized (stripped, lowercased) query equals an
entry of `COMMON_SPANISH_NAMES` *and that entry is 3 to 8 characters long*
(the name check sits inside the source's 3-8 length guard), spell-out is
forced at the name validation; the returned result has
`deletreo_activado = true`, `grupo = null` and the spelled tokens of the
leet-normalized query, provided the Stage-5 length-penalty recomputation
(which runs after the heuristics) does not clear the group's spelling
threshold. -/
theorem c3_name_forces_spell_out
    (top_groups : List GroupData) (gf : List (String × List String))
    (query grupo frase : String) (sim : ℚ)
    (hr : find_most_similar_phrase_reranked top_groups = some (grupo, frase, sim))
    (hname : COMMON_SPANISH_NAMES.contains (pyLower (pyStrip query)) = true)
    (hlen3 : 3 ≤ (pyLower (pyStrip query)).length)
    (hlen8 : (pyLower (pyStrip query)).length ≤ 8)
    (hpen : ∀ x, length_penalized query frase sim = some x →
        x < SPELL_OUT_THRESHOLDS grupo) :
    ∃ r, search_similar_phrase top_groups gf query = some r ∧
      r.deletreo_activado = true ∧ r.grupo = none ∧
      r.deletreo = some (spell_out_text (normalize_leet_speak query) true) := by
  have hA : search_similar_phrase top_groups gf query =
      some (search_post gf query grupo frase sim) := by
    unfold search_similar_phrase ; rw [hr]
  have hcap : spell_out_caps query sim (spell_out_names gf query sim
      (spell_out_initial grupo sim)) = true := by
    rw [spell_out_names_of_name gf query sim _ hname hlen3 hlen8]
    exact spell_out_caps_true query sim
  rw [search_post_spell gf query grupo frase sim hcap hpen] at hA
  exact ⟨_, hA, rfl, rfl, rfl⟩

/-- C3: the claim as frozen is false: `"francisco"` is an entry of the
fixed name list, but it is 9 characters long, so the name check (guarded by
`3 <= len <= 8`) never fires; with a high-similarity match the query
`"Francisco"` is classified normally instead of being spelled out. -/
theorem c3_counterexample :
    COMMON_SPANISH_NAMES.contains (pyLower (pyStrip "Francisco")) = true ∧
    pyLower (pyStrip "Francisco") = "francisco" ∧
    ("francisco" : String).length = 9 ∧
    search_similar_phrase [⟨"A", [("Necesito ayuda", 99/100)]⟩]
        [("A", ["Necesito ayuda"])] "Francisco" =
      some { query := "Francisco", grupo := some "A",
             frase_similar := "Necesito ayuda", similitud := 1,
             deletreo_activado := false, deletreo := none,
             total_caracteres := none } := by
  decide

theorem c3_witness :
    ∃ r, search_similar_phrase [⟨"A", [("Necesito ayuda", 9/10)]⟩]
        [("A", ["Necesito ayuda"])] "Juan" = some r ∧
      r.deletreo_activado = true ∧ r.grupo = none ∧
      r.deletreo = some ["J", "U", "A", "N"] := by
  obtain ⟨r, h1, h2, h3, h4⟩ :=
    c3_name_forces_spell_out [⟨"A", [("Necesito ayuda", 9/10)]⟩]
      [("A", ["Necesito ayuda"])] "Juan" "A" "Necesito ayuda" 1
      (by decide) (by decide) (by decide) (by decide)
      (fun x hx => by
        rw [show length_penalized "Juan" "Necesito ayuda" 1 = none by decide] at hx
        cases hx)
  exact ⟨r, h1, h2, h3, by rw [h4] ; decide⟩

/-- C4: whenever both the stripped raw query and the matched phrase are
single words whose character lengths differ by more than 1,
`search_similar_phrase` reports exactly the unpenalized similarity minus
`0.05 x length_difference`, clamped to `[0, 1]` (and rounded to 4 decimals
as every reported score is), and the final spell-out flag is recomputed as
`penalized similarity < the chosen group's spelling threshold`. -/
theorem c4_length_penalty_and_recompute
    (top_groups : List GroupData) (gf : List (String × List String))
    (query grupo frase : String) (sim : ℚ)
    (hr : find_most_similar_phrase_reranked top_groups = some (grupo, frase, sim))
    (hq : (pySplitWS (pyStrip query)).length = 1)
    (hf : (pySplitWS (pyStrip frase)).length = 1)
    (hd : 1 < (((((pySplitWS (pyStrip query)).headD "").length : ℤ) -
        (((pySplitWS (pyStrip frase)).headD "").length : ℤ)).natAbs)) :
    ∃ r, search_similar_phrase top_groups gf query = some r ∧
      r.similitud = round4 (clip_similarity (sim - 5/100 *
        ((((((pySplitWS (pyStrip query)).headD "").length : ℤ) -
          (((pySplitWS (pyStrip frase)).headD "").length : ℤ)).natAbs : ℚ)))) ∧
      r.deletreo_activado =
        decide (clip_similarity (sim - 5/100 *
          ((((((pySplitWS (pyStrip query)).headD "").length : ℤ) -
            (((pySplitWS (pyStrip frase)).headD "").length : ℤ)).natAbs : ℚ)))
          < SPELL_OUT_THRESHOLDS grupo) := by
  have hpen : length_penalized query frase sim =
      some (clip_similarity (sim - 5/100 *
        ((((((pySplitWS (pyStrip query)).headD "").length : ℤ) -
          (((pySplitWS (pyStrip frase)).headD "").length : ℤ)).natAbs : ℚ)))) := by
    unfold length_penalized
    rw [if_pos ⟨hq, hf⟩, if_pos hd]
  have hA : search_similar_phrase top_groups gf query =
      some (search_post gf query grupo frase sim) := by
    unfold search_similar_phrase ; rw [hr]
  refine ⟨_, hA, ?_, ?_⟩
  · rw [search_post_similitud, hpen]
    rfl
  · exact search_post_flag gf query grupo frase sim _ hpen

theorem c4_witness :
    ∃ r, search_similar_phrase [⟨"A", [("No", 9/10)]⟩] [("A", ["No"])]
        "mesa" = some r ∧
      r.similitud = round4 (clip_similarity (19/20 - 5/100 *
        ((((((pySplitWS (pyStrip "mesa")).headD "").length : ℤ) -
          (((pySplitWS (pyStrip "No")).headD "").length : ℤ)).natAbs : ℚ)))) ∧
      r.deletreo_activado =
        decide (clip_similarity (19/20 - 5/100 *
          ((((((pySplitWS (pyStrip "mesa")).headD "").length : ℤ) -
            (((pySplitWS (pyStrip "No")).headD "").length : ℤ)).natAbs : ℚ)))
          < SPELL_OUT_THRESHOLDS "A") :=
  c4_length_penalty_and_recompute [⟨"A", [("No", 9/10)]⟩] [("A", ["No"])]
    "mesa" "A" "No" (19/20) (by decide) (by decide) (by decide) (by decide)

/-- C5: the claim as frozen is false: the variants are produced by Python's
global substring `str.replace` on the lowercased query, not by word-for-word
substitution.  For the query `"hola holas"`, the returned expansion contains
`"saludos saludoss"` (both the word `"hola"` and the inside of `"holas"`
were rewritten), which is not among the word-for-word single-substitution
variants and is not the original query. -/
theorem c5_counterexample :
    "saludos saludoss" ∈ expand_with_synonyms true "hola holas" ∧
    "saludos saludoss" ∉ wordForWordVariants "hola holas" ∧
    "saludos saludoss" ≠ "hola holas" := by
  decide

/-- C5 (amended): the synonym expansion returns the first 5 elements of the
list whose element 0 is the original (preprocessed) query followed by one
variant per (query word in the synonym table, synonym) pair; hence at most
4 variants accompany the original, and every later element is obtained by
replacing every substring occurrence of a table word in the lowercased
query with that word's synonym (Python `str.replace`). -/
theorem c5_expansion_shape :
    (∀ q : String, (expand_with_synonyms true q).headD "" = q) ∧
    (∀ q : String, (expand_with_synonyms true q).length ≤ 5) ∧
    (∀ (q v : String), v ∈ (expand_with_synonyms true q).drop 1 →
      ∃ w syns syn, SYNONYMS.lookup w = some syns ∧ syn ∈ syns ∧
        w ∈ pySplitWS (pyLower q) ∧ v = pyReplace (pyLower q) w syn) := by
  refine ⟨?_, ?_, ?_⟩
  · intro q
    simp [expand_with_synonyms]
  · intro q
    simp only [expand_with_synonyms]
    rw [if_neg (by simp)]
    exact List.length_take_le 5 _
  · intro q v hv
    simp only [expand_with_synonyms] at hv
    rw [if_neg (by simp)] at hv
    rw [List.take_succ_cons, List.drop_succ_cons, List.drop_zero] at hv
    have hv2 : v ∈ List.flatten ((pySplitWS (pyLower q)).map (fun w =>
        match SYNONYMS.lookup w with
        | some syns => syns.map (fun syn => pyReplace (pyLower q) w syn)
        | none => [])) := List.mem_of_mem_take hv
    obtain ⟨l, hl, hvl⟩ := List.mem_flatten.mp hv2
    obtain ⟨w, hw, hwl⟩ := List.mem_map.mp hl
    cases hs : SYNONYMS.lookup w with
    | none => rw [hs] at hwl ; rw [← hwl] at hvl ; cases hvl
    | some syns =>
      rw [hs] at hwl
      rw [← hwl] at hvl
      obtain ⟨syn, hsyn, hrep⟩ := List.mem_map.mp hvl
      exact ⟨w, syns, syn, hs, hsyn, hw, hrep.symm⟩

theorem c5_witness :
    (expand_with_synonyms true "ayuda").headD "" = "ayuda" ∧
    (expand_with_synonyms true "ayuda").length ≤ 5 ∧
    (∃ w syns syn, SYNONYMS.lookup w = some syns ∧ syn ∈ syns ∧
      w ∈ pySplitWS (pyLower "ayuda") ∧
      "asistencia" = pyReplace (pyLower "ayuda") w syn) :=
  ⟨c5_expansion_shape.1 "ayuda", c5_expansion_shape.2.1 "ayuda",
   c5_expansion_shape.2.2 "ayuda" "asistencia" (by decide)⟩

/-- C6 (amended): for a raw query longer than 2 characters whose first
character is uppercase and whose remainder satisfies Python `islower` (the
Title-Case shape), a similarity below 0.98 forces spell-out at the
capitalization check; `deletreo_activado = true` in the returned result,
provided the Stage-5 length-penalty recomputation (which runs after the
heuristics and overwrites the flag) does not clear the group's spelling
threshold. -/
theorem c6_capitalization_forces_spell_out
    (top_groups : List GroupData) (gf : List (String × List String))
    (query grupo frase : String) (sim : ℚ)
    (hr : find_most_similar_phrase_reranked top_groups = some (grupo, frase, sim))
    (hlen : 2 < query.length)
    (hup : pyCharIsUpper (query.data.headD ' ') = true)
    (hlow : pyStrIsLower (String.mk (query.data.drop 1)) = true)
    (hsim : sim < 98/100)
    (hpen : ∀ x, length_penalized query frase sim = some x →
        x < SPELL_OUT_THRESHOLDS grupo) :
    ∃ r, search_similar_phrase top_groups gf query = some r ∧
      r.deletreo_activado = true ∧ r.grupo = none := by
  have hA : search_similar_phrase top_groups gf query =
      some (search_post gf query grupo frase sim) := by
    unfold search_similar_phrase ; rw [hr]
  have hcap := spell_out_caps_of_format query sim
    (spell_out_names gf query sim (spell_out_initial grupo sim))
    hlen hup hlow hsim
  rw [search_post_spell gf query grupo frase sim hcap hpen] at hA
  exact ⟨_, hA, rfl, rfl⟩

/-- C6: the claim as frozen is false: `"Topo"` is a Title-Case single token
longer than 2 characters and its similarity 0.95 is below 0.98, so the
capitalization check forces the flag — but the later length-penalty block
(single-word query vs the single-word match `"No"`, length difference 2)
recomputes `should_spell_out` from the penalized score 0.85, which clears
group A's spelling threshold 0.75, so the returned result has
`deletreo_activado = false`. -/
theorem c6_counterexample :
    (2 < ("Topo" : String).length ∧
      pyCharIsUpper (("Topo" : String).data.headD ' ') = true ∧
      pyStrIsLower (String.mk (("Topo" : String).data.drop 1)) = true) ∧
    find_most_similar_phrase_reranked [⟨"A", [("No", 9/10)]⟩] =
      some ("A", "No", 19/20) ∧
    (19/20 : ℚ) < 98/100 ∧
    search_similar_phrase [⟨"A", [("No", 9/10)]⟩] [("A", ["No"])] "Topo" =
      some { query := "Topo", grupo := some "A", frase_similar := "No",
             similitud := 17/20, deletreo_activado := false, deletreo := none,
             total_caracteres := none } := by
  decide

theorem c6_witness :
    ∃ r, search_similar_phrase [⟨"B", [("Buenos días tengan", 1/2)]⟩]
        [("B", ["Buenos días tengan"])] "Rodrigo" = some r ∧
      r.deletreo_activado = true ∧ r.grupo = none := by
  obtain ⟨r, h1, h2, h3⟩ :=
    c6_capitalization_forces_spell_out [⟨"B", [("Buenos días tengan", 1/2)]⟩]
      [("B", ["Buenos días tengan"])] "Rodrigo" "B" "Buenos días tengan" (7/10)
      (by decide) (by decide) (by decide) (by decide) (by decide)
      (fun x hx => by
        rw [show length_penalized "Rodrigo" "Buenos días tengan" (7/10) =
          none by decide] at hx
        cases hx)
  exact ⟨r, h1, h2, h3⟩

/-- C7: the claim matches the function's own documentation but not its
code: the regex class `\w` used by `normalize_text` includes the
underscore, so `'_'` — which is neither a letter, a digit nor whitespace —
survives normalization instead of being replaced by a space:
`normalize_text "a_b"` is `"a_b"`, not `"a b"`, and the output contains a
character outside the claimed repertoire. -/
theorem c7_normalize_keeps_underscore :
    normalize_text "a_b" = "a_b" ∧
    normalize_text "a_b" ≠ "a b" ∧
    '_' ∈ (normalize_text "a_b").data ∧
    ¬ ('_'.isAlpha ∨ '_'.isDigit ∨ '_'.isWhitespace) := by
  decide

/-- C8: the claim as frozen is false: when the best-scoring reference is
the empty string, Python's truthiness check `if best_match` rejects it and
the original query is returned.  Against the reference list `[""]`, the
query `"!!!"` (whose normalization is also empty) scores 100 with the empty
reference — the single best score and at least the default threshold 80 —
yet `light_spelling_correction` returns `"!!!"`, not the reference `""`. -/
theorem c8_counterexample :
    claimBestRef (normalize_text "!!!") [""] = some ("", 100) ∧
    (80 : ℚ) ≤ 100 ∧
    light_spelling_correction "!!!" [""] 80 = "!!!" ∧
    ("!!!" : String) ≠ "" := by
  decide

/-- C8 (amended): for every positive threshold,
`light_spelling_correction` returns the original text of the single
best-scoring reference (normalized-edit-similarity on the 0-100 scale
between normalized query and normalized reference, ties broken
first-encountered-wins by the strict comparison against the running best)
whenever that best score meets the threshold *and the winning reference is
non-empty*; otherwise it returns the query unchanged. -/
theorem c8_correction_follows_best (query : String) (refs : List String)
    (threshold : ℚ) (hthr : 0 < threshold) :
    light_spelling_correction query refs threshold =
      match claimBestRef (normalize_text query) refs with
      | none => query
      | some e => if threshold ≤ e.2 ∧ e.1 ≠ "" then e.1 else query := by
  unfold light_spelling_correction
  rw [corr_foldl (normalize_text query) threshold refs "" 0]
  cases hbr : claimBestRef (normalize_text query) refs with
  | none => simp
  | some e =>
    dsimp only
    by_cases hc : threshold ≤ e.2
    · have h0 : (0 : ℚ) < e.2 := lt_of_lt_of_le hthr hc
      rw [if_pos (show threshold ≤ e.2 ∧ 0 < e.2 from ⟨hc, h0⟩)]
      by_cases hne : e.1 ≠ ""
      · rw [if_pos (show e.1 ≠ "" ∧ threshold ≤ e.2 from ⟨hne, hc⟩),
          if_pos (show threshold ≤ e.2 ∧ e.1 ≠ "" from ⟨hc, hne⟩)]
      · push_neg at hne
        rw [if_neg (show ¬ (e.1 ≠ "" ∧ threshold ≤ e.2) from
            fun hcc => hcc.1 hne),
          if_neg (show ¬ (threshold ≤ e.2 ∧ e.1 ≠ "") from
            fun hcc => hcc.2 hne)]
    · rw [if_neg (show ¬ (threshold ≤ e.2 ∧ 0 < e.2) from fun hcc => hc hcc.1)]
      rw [if_neg (show ¬ ((("", (0 : ℚ)).1 ≠ "") ∧
          threshold ≤ (("", (0 : ℚ)).2)) from fun hcc => hcc.1 rfl)]
      rw [if_neg (show ¬ (threshold ≤ e.2 ∧ e.1 ≠ "") from
        fun hcc => hc hcc.1)]

theorem c8_witness :
    (0 : ℚ) < 80 ∧
    light_spelling_correction "ola" ["hola", "buenos dias"] 80 = "hola" := by
  refine ⟨by norm_num, ?_⟩
  rw [c8_correction_follows_best "ola" ["hola", "buenos dias"] 80 (by norm_num)]
  decide

/-- C9: `spell_out_text` scans the uppercased text left to right and at
every position checks the digraphs `LL`, `RR`, `CH` first, emitting the
digraph as one token and consuming two characters before any
single-character handling; in particular `spell_out_text "llama"` yields
`["LL", "A", "M", "A"]` and the empty input yields the empty list. -/
theorem c9_digraphs_first :
    (∀ (inc : Bool) (cs : List Char),
      spellScan inc ('L' :: 'L' :: cs) = "LL" :: spellScan inc cs ∧
      spellScan inc ('R' :: 'R' :: cs) = "RR" :: spellScan inc cs ∧
      spellScan inc ('C' :: 'H' :: cs) = "CH" :: spellScan inc cs) ∧
    spell_out_text "llama" true = ["LL", "A", "M", "A"] ∧
    (∀ inc : Bool, spell_out_text "" inc = []) := by
  refine ⟨fun inc cs => ⟨rfl, rfl, rfl⟩, by decide, fun inc => rfl⟩

/-- C10 (amended): the capitalization heuristic is indeed not restricted to
single tokens, but its trigger is Python's `islower` on `query[1:]` — the
remainder must contain at least one lowercase letter and no uppercase
letter, not merely "no uppercase letter" — and for a single-word query the
Stage-5 penalty can still reset the flag.  For every raw query of more than
one whitespace-separated word, longer than 2 characters, with an uppercase
first character and an `islower` remainder (e.g. `"Hola amigo"`), a
similarity below 0.98 forces `deletreo_activado = true` unconditionally. -/
theorem c10_capitalization_multiword
    (top_groups : List GroupData) (gf : List (String × List String))
    (query grupo frase : String) (sim : ℚ)
    (hr : find_most_similar_phrase_reranked top_groups = some (grupo, frase, sim))
    (hlen : 2 < query.length)
    (hup : pyCharIsUpper (query.data.headD ' ') = true)
    (hlow : pyStrIsLower (String.mk (query.data.drop 1)) = true)
    (hsim : sim < 98/100)
    (hmulti : (pySplitWS (pyStrip query)).length ≠ 1) :
    ∃ r, search_similar_phrase top_groups gf query = some r ∧
      r.deletreo_activado = true ∧ r.grupo = none := by
  have hpn : length_penalized query frase sim = none := by
    unfold length_penalized
    rw [if_neg (fun hc => hmulti hc.1)]
  exact c6_capitalization_forces_spell_out top_groups gf query grupo frase sim
    hr hlen hup hlow hsim
    (fun x hx => by rw [hpn] at hx ; cases hx)

/-- C10: the claim as frozen is false: for the query `"A12"` the remainder
`"12"` contains no uppercase letter, the query is longer than 2 characters
and starts with an uppercase letter, and the similarity 0.9 is below 0.98 —
but Python's `islower` is false on `"12"` (no cased character), so the
heuristic does not fire and the result is a normal classification with
`deletreo_activado = false`. -/
theorem c10_counterexample :
    (2 < ("A12" : String).length ∧
      pyCharIsUpper (("A12" : String).data.headD ' ') = true ∧
      (("A12" : String).data.drop 1).all (fun c => !pyCharIsUpper c) = true) ∧
    find_most_similar_phrase_reranked
        [⟨"A", [("Necesito ayuda urgente", 7/10)]⟩] =
      some ("A", "Necesito ayuda urgente", 9/10) ∧
    (9/10 : ℚ) < 98/100 ∧
    search_similar_phrase [⟨"A", [("Necesito ayuda urgente", 7/10)]⟩]
        [("A", ["Necesito ayuda urgente"])] "A12" =
      some { query := "A12", grupo := some "A",
             frase_similar := "Necesito ayuda urgente", similitud := 9/10,
             deletreo_activado := false, deletreo := none,
             total_caracteres := none } := by
  decide

theorem c10_witness :
    ∃ r, search_similar_phrase [⟨"B", [("Buenos días tengan", 1/2)]⟩]
        [("B", ["Buenos días tengan"])] "Hola amigo" = some r ∧
      r.deletreo_activado = true ∧ r.grupo = none := by
  obtain ⟨r, h1, h2, h3⟩ :=
    c10_capitalization_multiword [⟨"B", [("Buenos días tengan", 1/2)]⟩]
      [("B", ["Buenos días tengan"])] "Hola amigo" "B" "Buenos días tengan"
      (7/10) (by decide) (by decide) (by decide) (by decide) (by decide)
      (by decide)
  exact ⟨r, h1, h2, h3⟩
